import Mathlib

/-!
Verification of `matminer/featurizers/stats.py` (`PropertyStats`).

Shallow embedding conventions:
* Python floats are idealized as exact rationals (`ℚ`); the IEEE value NaN is
  modelled explicitly where the code's behaviour depends on it, via
  `PFloat := Option ℚ` with `none` playing the role of NaN.
* Results that involve `sqrt`, `exp`, `log` or real powers live in `ℝ`.
* Fallible Python code (raising exceptions) returns `Except PyError _`.
* The dynamic `getattr`-based dispatch of `calc_stat` is modelled as an
  explicit name → function table over the statistic methods of the class,
  exactly the "explicit registry table" reading prescribed by the spec.
-/

set_option linter.unusedVariables false

deriving instance DecidableEq for Except

/-- Python exception kinds that the embedded code can raise. -/
inductive PyError
  | typeError
  | valueError
  | attributeError
  | zeroDivisionError
  | indexError
  deriving DecidableEq, Repr

/-- A Python float: either a finite value (idealized as `ℚ`) or NaN (`none`). -/
abbrev PFloat := Option ℚ

namespace PFloat

/-- Python `==` on floats: NaN compares unequal to everything, including itself. -/
def pyEq : PFloat → PFloat → Bool
  | some a, some b => a == b
  | _, _ => false

/-- Python `<` on floats: any comparison involving NaN is false. -/
def pyLt : PFloat → PFloat → Bool
  | some a, some b => decide (a < b)
  | _, _ => false

/-- Python `>` on floats: any comparison involving NaN is false. -/
def pyGt : PFloat → PFloat → Bool
  | some a, some b => decide (b < a)
  | _, _ => false

/-- IEEE addition: NaN contaminates. -/
def pAdd : PFloat → PFloat → PFloat
  | some a, some b => some (a + b)
  | _, _ => none

/-- IEEE subtraction: NaN contaminates. -/
def pSub : PFloat → PFloat → PFloat
  | some a, some b => some (a - b)
  | _, _ => none

/-- IEEE multiplication: NaN contaminates (even `NaN * 0 = NaN`). -/
def pMul : PFloat → PFloat → PFloat
  | some a, some b => some (a * b)
  | _, _ => none

/-- IEEE absolute value. -/
def pAbs : PFloat → PFloat
  | some a => some |a|
  | none => none

/-- Division of a float by a nonzero finite float (divisor checked at call sites). -/
def pDivQ (p : PFloat) (q : ℚ) : PFloat :=
  match p with
  | some a => some (a / q)
  | none => none

/-- Sum of a list of floats; NaN contaminates the sum. -/
def pSum (l : List PFloat) : PFloat :=
  l.foldr pAdd (some 0)

end PFloat

open PFloat

/-- All elements are finite: recover the underlying rationals, else `none`
(some element is NaN). Models the NaN-contamination case split that IEEE
arithmetic produces inside the numpy reductions. -/
def deNaN : List PFloat → Option (List ℚ)
  | [] => some []
  | none :: _ => none
  | some q :: rest => (deNaN rest).map (q :: ·)

namespace PropertyStats

/-- Python `float("nan") in data_lst`: membership is decided by `==` (identity
of a freshly allocated float object never matches), and `nan == x` is false
for every float `x`, so this test is the literal translation of the source's
containment check. -/
def containsNan (data_lst : List PFloat) : Bool :=
  data_lst.any (fun e => pyEq none e)

/-- Python `min` over floats: keeps the current minimum, replacing it only when
`x < m` is true; comparisons with NaN are false. `min([])` raises ValueError. -/
def pyMin : List PFloat → Except PyError PFloat
  | [] => .error .valueError
  | x :: xs => .ok (xs.foldl (fun m y => if pyLt y m then y else m) x)

/-- Python `max` over floats, mirroring `pyMin`. -/
def pyMax : List PFloat → Except PyError PFloat
  | [] => .error .valueError
  | x :: xs => .ok (xs.foldl (fun m y => if pyGt y m then y else m) x)

/-- `PropertyStats.minimum`: `min(data_lst) if float("nan") not in data_lst
else float("nan")`; the `weights` argument is ignored. -/
def minimum (data_lst : List PFloat) (weights : Option (List ℚ) := none) :
    Except PyError PFloat :=
  if containsNan data_lst then .ok none else pyMin data_lst

/-- `PropertyStats.maximum`: `max(data_lst) if float("nan") not in data_lst
else float("nan")`; the `weights` argument is ignored. -/
def maximum (data_lst : List PFloat) (weights : Option (List ℚ) := none) :
    Except PyError PFloat :=
  if containsNan data_lst then .ok none else pyMax data_lst

/-- `PropertyStats.range`: `(max(data_lst) - min(data_lst)) if float("nan")
not in data_lst else float("nan")`; the `weights` argument is ignored. -/
def range (data_lst : List PFloat) (weights : Option (List ℚ) := none) :
    Except PyError PFloat :=
  if containsNan data_lst then .ok none
  else do
    let mx ← pyMax data_lst
    let mn ← pyMin data_lst
    .ok (pSub mx mn)

/-- `PropertyStats.mean`: `np.average(data_lst, weights=weights)`.
Without weights numpy computes `sum/len` (NaN for the empty list, with a
RuntimeWarning); with weights it checks the shapes match (TypeError
otherwise), raises ZeroDivisionError when the weights sum to zero, and
otherwise returns `Σ w_i·x_i / Σ w_i`. -/
def mean (data_lst : List PFloat) (weights : Option (List ℚ) := none) :
    Except PyError PFloat :=
  match weights with
  | none =>
      if data_lst = [] then .ok none
      else .ok (pDivQ (pSum data_lst) data_lst.length)
  | some w =>
      if w.length ≠ data_lst.length then .error .typeError
      else if w.sum = 0 then .error .zeroDivisionError
      else .ok (pDivQ (pSum (List.zipWith (fun wi x => pMul (some wi) x) w data_lst)) w.sum)

/-- Python `1.0 / x` on floats: raises ZeroDivisionError on a (finite) zero;
`1.0 / NaN` is NaN. -/
def pyRecip : PFloat → Except PyError PFloat
  | some a => if a = 0 then .error .zeroDivisionError else .ok (some (1 / a))
  | none => .ok none

/-- `PropertyStats.inverse_mean`: `mean([1.0 / x for x in data_lst], weights)`.
The list comprehension stops with ZeroDivisionError at the first zero entry. -/
def inverse_mean (data_lst : List PFloat) (weights : Option (List ℚ) := none) :
    Except PyError PFloat := do
  let recips ← data_lst.mapM pyRecip
  mean recips weights

/-- `PropertyStats.avg_dev`: `np.average(np.abs(np.subtract(data_lst, mean)), weights)`
with `mean = PropertyStats.mean(data_lst, weights)`. -/
def avg_dev (data_lst : List PFloat) (weights : Option (List ℚ) := none) :
    Except PyError PFloat := do
  let m ← mean data_lst weights
  mean (data_lst.map (fun x => pAbs (pSub x m))) weights

/-- Variance computed by `np.std` on a NaN-free sample: the mean of the squared
deviations from the arithmetic mean (division by `n`, not `n - 1`). -/
def npVar (data_lst : List ℚ) : ℚ :=
  ((data_lst.map (fun x => (x - data_lst.sum / data_lst.length) ^ 2)).sum) / data_lst.length

/-- `PropertyStats.std_dev` on a NaN-free sample with valid weights (shape and
zero-sum errors of the inner `np.average` are raised by the dispatch wrapper
`std_devEntry`). Unweighted: `np.std(data_lst)`. Weighted:
`beta = Σw / ((Σw)² - Σ w²)`, `dev_i = (x_i - mean(x, w))²`,
result `sqrt(beta * Σ dev_i·w_i)`. -/
noncomputable def std_dev (data_lst : List ℚ) (weights : Option (List ℚ) := none) : ℝ :=
  match weights with
  | none => Real.sqrt (npVar data_lst)
  | some w =>
      let beta : ℚ := w.sum / (w.sum ^ 2 - (w.map (fun x => x ^ 2)).sum)
      let mu : ℚ := (List.zipWith (· * ·) w data_lst).sum / w.sum
      let dev : List ℚ := data_lst.map (fun x => (x - mu) ^ 2)
      Real.sqrt (beta * (List.zipWith (· * ·) dev w).sum)

/-- Digit run of a Python decimal literal, as a natural number. -/
def digitsVal : List Char → ℕ
  | [] => 0
  | c :: cs => (c.toNat - '0'.toNat) * 10 ^ cs.length + digitsVal cs

/-- Exponent suffix of a Python float literal (the characters after `e`/`E`):
an optional sign followed by at least one digit. -/
def parseExponent (cs : List Char) : Option ℤ :=
  match cs with
  | '-' :: ds =>
      if ds ≠ [] ∧ ds.all Char.isDigit then some (-(digitsVal ds : ℤ)) else none
  | '+' :: ds =>
      if ds ≠ [] ∧ ds.all Char.isDigit then some (digitsVal ds) else none
  | ds => if ds ≠ [] ∧ ds.all Char.isDigit then some (digitsVal ds) else none

/-- Unsigned part of Python `float(s)` for finite decimal literals, with
optional fraction and scientific exponent (`"2"`, `"2.5"`, `".5"`, `"2."`,
`"25e-1"`, `"2.5E1"`). The non-finite literals `inf`/`nan` (and embedded
whitespace/underscores) lie outside the exact-rational idealization of floats
used throughout and are not modelled. -/
def parseUnsigned (cs : List Char) : Option ℚ :=
  let ip := cs.takeWhile Char.isDigit
  match cs.dropWhile Char.isDigit with
  | [] => if ip = [] then none else some (digitsVal ip)
  | 'e' :: ex =>
      if ip = [] then none
      else (parseExponent ex).map (fun k => (digitsVal ip : ℚ) * 10 ^ k)
  | 'E' :: ex =>
      if ip = [] then none
      else (parseExponent ex).map (fun k => (digitsVal ip : ℚ) * 10 ^ k)
  | '.' :: rest =>
      let frac := rest.takeWhile Char.isDigit
      if ip = [] ∧ frac = [] then none
      else
        let m : ℚ := (digitsVal ip : ℚ) + (digitsVal frac : ℚ) / 10 ^ frac.length
        match rest.dropWhile Char.isDigit with
        | [] => some m
        | 'e' :: ex => (parseExponent ex).map (fun k => m * 10 ^ k)
        | 'E' :: ex => (parseExponent ex).map (fun k => m * 10 ^ k)
        | _ => none
  | _ => none

/-- Python `float(s)` on decimal literals, with optional sign; `none` models
the ValueError raised on a malformed literal. -/
def floatOfString (s : String) : Option ℚ :=
  match s.toList with
  | '-' :: rest => (parseUnsigned rest).map Neg.neg
  | '+' :: rest => parseUnsigned rest
  | cs => parseUnsigned cs

/-- Numeric core of `PropertyStats.holder_mean` (the `power` argument already
coerced to a number). Mirrors the source's case split: without weights,
`power == 0` gives `scipy.stats.mstats.gmean` (`exp` of the mean `log`) and
otherwise `(mean(x^power))^(1/power)`; with weights, `power == 0` gives
`Π x_i^(w_i/Σw)` and otherwise `(Σ w_i·x_i^power / Σw)^(1/power)`. -/
noncomputable def holderQ (data_lst : List ℚ) (weights : Option (List ℚ)) (power : ℚ) : ℝ :=
  match weights with
  | none =>
      if power = 0 then
        Real.exp ((data_lst.map (fun x : ℚ => Real.log x)).sum / data_lst.length)
      else
        ((data_lst.map (fun x : ℚ => (x : ℝ) ^ (power : ℝ))).sum / data_lst.length) ^
          ((1 : ℝ) / (power : ℝ))
  | some w =>
      let alpha : ℚ := w.sum
      if power = 0 then
        (List.zipWith (fun (x : ℚ) (wi : ℚ) => (x : ℝ) ^ ((wi / w.sum : ℚ) : ℝ)) data_lst w).prod
      else
        ((List.zipWith (fun (wi : ℚ) (x : ℚ) => (wi : ℝ) * (x : ℝ) ^ (power : ℝ)) w data_lst).sum /
            (alpha : ℝ)) ^ ((1 : ℝ) / (power : ℝ))

/-- `PropertyStats.holder_mean`: the `power` argument may be a number or a
string (the dispatcher forwards parameters as strings); a string is coerced
with `float(power)` first, raising ValueError if malformed. -/
noncomputable def holder_mean (data_lst : List ℚ) (weights : Option (List ℚ) := none)
    (power : ℚ ⊕ String := .inl 1) : Except PyError ℝ :=
  match power with
  | .inl p => .ok (holderQ data_lst weights p)
  | .inr s =>
      match floatOfString s with
      | some p => .ok (holderQ data_lst weights p)
      | none => .error .valueError

/-- `PropertyStats.geom_std_dev`: substitutes `np.ones_like` weights when none
are given, then `sqrt(exp(beta * Σ w_i · ln(x_i/gmean)²))` with `gmean` the
weighted geometric (power-0 Holder) mean and `beta` as in `std_dev`. -/
noncomputable def geom_std_dev (data_lst : List ℚ) (weights : Option (List ℚ) := none) : ℝ :=
  let w := weights.getD (List.replicate data_lst.length 1)
  let gmean := holderQ data_lst (some w) 0
  let beta : ℚ := w.sum / (w.sum ^ 2 - (w.map (fun x => x ^ 2)).sum)
  let dev := data_lst.map (fun x : ℚ => Real.log ((x : ℝ) / gmean))
  Real.sqrt (Real.exp ((beta : ℝ) *
    (List.zipWith (fun (wi : ℚ) (d : ℝ) => (wi : ℝ) * d ^ 2) w dev).sum))

/-- `np.isclose` with the default tolerances `rtol = 1e-05`, `atol = 1e-08`:
`|a - b| ≤ atol + rtol·|b|`. -/
def isclose (a b : ℚ) : Bool :=
  |a - b| ≤ 1 / 100000000 + (1 / 100000) * |b|

/-- `np.ndarray.max` over a nonempty NaN-free array (head seeded fold). -/
def qMax : List ℚ → ℚ
  | [] => 0
  | x :: xs => xs.foldl max x

/-- Python `min`/`np.ndarray.min` over a nonempty NaN-free list (head seeded). -/
def qMin : List ℚ → ℚ
  | [] => 0
  | x :: xs => xs.foldl min x

/-- `PropertyStats.mode` on a NaN-free sample. Unweighted:
`scipy.stats.mode(data_lst).mode[0]`, i.e. the first value of maximal count in
the ascending order of the distinct values (`np.unique` sorts, `np.argmax`
takes the first maximum). Weighted: boolean mask `np.isclose(w, w.max())`,
then the minimum of the masked values; a mask whose length differs from the
data raises IndexError, and `max` of an empty weight array raises ValueError. -/
def mode (data_lst : List ℚ) (weights : Option (List ℚ) := none) :
    Except PyError ℚ :=
  match weights with
  | none =>
      match ((data_lst.dedup).insertionSort (· ≤ ·)).argmax
          (fun v => data_lst.count v) with
      | some m => .ok m
      | none => .error .indexError
  | some w =>
      if w = [] then .error .valueError
      else if w.length ≠ data_lst.length then .error .indexError
      else
        match ((List.zip data_lst w).filter (fun p => isclose p.2 (qMax w))).map
            Prod.fst with
        | [] => .error .valueError
        | v :: vs => .ok (vs.foldl min v)

/-- `PropertyStats.sorted`: `np.sort(data_lst)` (ascending). -/
def sorted (data_lst : List ℚ) : List ℚ :=
  data_lst.insertionSort (· ≤ ·)

/-- `np.arange(a, b, d)` idealized over exact rationals: `⌈(b-a)/d⌉` points
`a, a+d, a+2·d, …` (empty when the count is non-positive). A zero step raises
in numpy; it is modelled as the empty array and never reached by the claims. -/
def aRange (a b d : ℚ) : List ℚ :=
  if d = 0 then []
  else (List.range (⌈(b - a) / d⌉).toNat).map (fun i => a + i * d)

/-- `np.histogram(data, bins=edges)` counts: with `m+1` edges there are `m`
bins; bin `i` is the half-open interval `[e_i, e_{i+1})` except the last bin,
which also includes its right edge. Values outside the edge span are ignored. -/
def histCounts (data : List ℚ) (bins : List ℚ) : List ℕ :=
  (List.range (bins.length - 1)).map (fun i =>
    let lo := bins.getD i 0
    let hi := bins.getD (i + 1) 0
    if i = bins.length - 2 then
      (data.filter (fun x => decide (lo ≤ x) && decide (x ≤ hi))).length
    else
      (data.filter (fun x => decide (lo ≤ x) && decide (x < hi))).length)

/-- Comparison key used to model `np.argsort(hist)`: ascending by count, ties
by ascending index (the spec's prescribed deterministic tie order). -/
def argKey (hist : List ℕ) (i j : ℕ) : Prop :=
  hist.getD i 0 < hist.getD j 0 ∨ (hist.getD i 0 = hist.getD j 0 ∧ i ≤ j)

instance (hist : List ℕ) : DecidableRel (argKey hist) := fun i j => by
  unfold argKey; infer_instance

instance (hist : List ℕ) : IsTotal ℕ (argKey hist) where
  total i j := by
    unfold argKey
    rcases lt_trichotomy (hist.getD i 0) (hist.getD j 0) with h | h | h
    · exact Or.inl (Or.inl h)
    · rcases Nat.le_total i j with hij | hij
      · exact Or.inl (Or.inr ⟨h, hij⟩)
      · exact Or.inr (Or.inr ⟨h.symm, hij⟩)
    · exact Or.inr (Or.inl h)

instance (hist : List ℕ) : IsTrans ℕ (argKey hist) where
  trans i j k hij hjk := by
    unfold argKey at *
    rcases hij with h1 | ⟨h1, h1'⟩ <;> rcases hjk with h2 | ⟨h2, h2'⟩
    · exact Or.inl (h1.trans h2)
    · exact Or.inl (h2 ▸ h1)
    · exact Or.inl (h1 ▸ h2)
    · exact Or.inr ⟨h1.trans h2, h1'.trans h2'⟩

/-- `np.argsort(hist)`: the bin indices sorted ascending by count. -/
def argsortAsc (hist : List ℕ) : List ℕ :=
  (List.range hist.length).insertionSort (argKey hist)

/-- Python slice `l[-n:]`: the last `n` elements for `n ≥ 1`; for `n = 0` the
index `-0` is `0`, so the slice is the whole list. -/
def lastSlice (l : List ℕ) (n : ℕ) : List ℕ :=
  if n = 0 then l else l.drop (l.length - n)

/-- `PropertyStats.n_numerical_modes` on a NaN-free sample. If all values are
identical, `[data_lst[0]] + [NaN] * (n-1)`. Otherwise histogram the data over
`np.arange(min, max, dl)`, take `bins[np.argsort(hist)[-n:]][::-1]` (the left
edges of the `n` largest-count bins, largest first) and right-pad with NaN to
length `n` when fewer than `n` bins exist. -/
def n_numerical_modes (data_lst : List ℚ) (n : ℕ) (dl : ℚ := 1 / 10) :
    List PFloat :=
  if data_lst.dedup.length = 1 then
    some data_lst.headI :: List.replicate (n - 1) none
  else
    let bins := aRange (qMin data_lst) (qMax data_lst) dl
    let hist := histCounts data_lst bins
    let modes := ((lastSlice (argsortAsc hist) n).map (fun i => bins.getD i 0)).reverse
    modes.map some ++ List.replicate (n - modes.length) none

end PropertyStats

/-- Argument shapes relevant to the kernel methods: a plain Python list, a 1-D
`np.ndarray`, or an `np.matrix` row vector (numpy matrices are always 2-D;
a `1 × k` matrix is modelled by its `k` entries). -/
inductive NpArr
  | pylist (xs : List ℚ)
  | nd (xs : List ℚ)
  | mat (xs : List ℚ)
  deriving DecidableEq

namespace NpArr

/-- Underlying entries of the array-like. -/
def vals : NpArr → List ℚ
  | .pylist xs => xs
  | .nd xs => xs
  | .mat xs => xs

/-- Whether the value is an `np.matrix`. -/
def isMat : NpArr → Bool
  | .mat _ => true
  | _ => false

/-- Python `arr0 - arr1` on these shapes: `list - list` is an unsupported
operand type (TypeError). When a numpy operand is involved the subtraction
broadcasts elementwise — equal lengths subtract pointwise, a length-1 operand
broadcasts against the other (numpy singleton broadcasting), and any other
shape mismatch raises ValueError — and the result is an `np.matrix` whenever
either operand is one, otherwise an `np.ndarray`. -/
def npSub (a b : NpArr) : Except PyError NpArr :=
  match a, b with
  | .pylist _, .pylist _ => .error .typeError
  | _, _ =>
      let mk : List ℚ → NpArr := if a.isMat || b.isMat then .mat else .nd
      if a.vals.length = b.vals.length then
        .ok (mk (List.zipWith (· - ·) a.vals b.vals))
      else if a.vals.length = 1 then
        .ok (mk (b.vals.map (fun y => a.vals.headI - y)))
      else if b.vals.length = 1 then
        .ok (mk (a.vals.map (fun x => x - b.vals.headI)))
      else .error .valueError

/-- The `A1` attribute (flattened 1-D copy): only `np.matrix` has it; any
other object raises AttributeError on access. -/
def A1 : NpArr → Except PyError (List ℚ)
  | .mat xs => .ok xs
  | _ => .error .attributeError

end NpArr

namespace PropertyStats

/-- `PropertyStats.laplacian_kernel`: `np.exp(-norm((arr0-arr1).A1, ord=1) / SIGMA)`. -/
noncomputable def laplacian_kernel (arr0 arr1 : NpArr) (SIGMA : ℚ) :
    Except PyError ℝ := do
  let diff ← NpArr.npSub arr0 arr1
  let v ← diff.A1
  .ok (Real.exp (-(((v.map (fun x => |x|)).sum : ℚ) : ℝ) / (SIGMA : ℝ)))

/-- `PropertyStats.gaussian_kernel`:
`np.exp(-norm((arr0-arr1).A1, ord=2)**2 / 2 / SIGMA**2)`. -/
noncomputable def gaussian_kernel (arr0 arr1 : NpArr) (SIGMA : ℚ) :
    Except PyError ℝ := do
  let diff ← NpArr.npSub arr0 arr1
  let v ← diff.A1
  .ok (Real.exp (-Real.sqrt (((v.map (fun x => x ^ 2)).sum : ℚ) : ℝ) ^ 2 / 2 /
    (SIGMA : ℝ) ^ 2))

end PropertyStats

/-- Split a character list at every occurrence of the two-character separator
`__`, as Python `str.split("__")` does (adjacent separators yield empty
tokens). -/
def splitUU : List Char → List Char → List (List Char)
  | '_' :: '_' :: rest, acc => acc.reverse :: splitUU rest []
  | c :: rest, acc => splitUU rest (c :: acc)
  | [], acc => [acc.reverse]

/-- Python `stat.split("__")`. -/
def pySplitOnUU (s : String) : List String :=
  (splitUU s.toList []).map (fun cs => String.mk cs)

/-- Python value returned by a dispatched statistic: a real-valued scalar, a
float scalar (possibly NaN), or a list of floats. -/
inductive PyVal
  | num (x : ℝ)
  | pf (x : PFloat)
  | flist (xs : List PFloat)

/-- A registered statistic as invoked by the dispatcher: it always receives the
sample and the weights positionally, plus the string parameters split from the
statistic identifier. -/
def StatEntry : Type :=
  List PFloat → Option (List ℚ) → List String → Except PyError PyVal

namespace PropertyStats

/-- Dispatcher image of `minimum` (`(data_lst, weights=None)`): a third
positional argument raises TypeError. -/
def minimumEntry : StatEntry := fun data w extras =>
  match extras with
  | [] => (minimum data w).map PyVal.pf
  | _ => .error .typeError

/-- Dispatcher image of `maximum`. -/
def maximumEntry : StatEntry := fun data w extras =>
  match extras with
  | [] => (maximum data w).map PyVal.pf
  | _ => .error .typeError

/-- Dispatcher image of `range`. -/
def rangeEntry : StatEntry := fun data w extras =>
  match extras with
  | [] => (range data w).map PyVal.pf
  | _ => .error .typeError

/-- Dispatcher image of `mean`. -/
def meanEntry : StatEntry := fun data w extras =>
  match extras with
  | [] => (mean data w).map PyVal.pf
  | _ => .error .typeError

/-- Dispatcher image of `inverse_mean`. -/
def inverse_meanEntry : StatEntry := fun data w extras =>
  match extras with
  | [] => (inverse_mean data w).map PyVal.pf
  | _ => .error .typeError

/-- Dispatcher image of `avg_dev`. -/
def avg_devEntry : StatEntry := fun data w extras =>
  match extras with
  | [] => (avg_dev data w).map PyVal.pf
  | _ => .error .typeError

/-- Dispatcher image of `std_dev`: with weights, the inner `np.average`
raises TypeError on a shape mismatch and ZeroDivisionError on zero-sum
weights regardless of the data; on validated weights (or none) a NaN in the
sample contaminates the result to NaN, otherwise the formula value is
produced. -/
noncomputable def std_devEntry : StatEntry := fun data w extras =>
  match extras with
  | [] =>
      match w with
      | none =>
          match deNaN data with
          | none => .ok (.pf none)
          | some qs => .ok (.num (std_dev qs none))
      | some wts =>
          if wts.length ≠ data.length then .error .typeError
          else if wts.sum = 0 then .error .zeroDivisionError
          else
            match deNaN data with
            | none => .ok (.pf none)
            | some qs => .ok (.num (std_dev qs (some wts)))
  | _ => .error .typeError

/-- Dispatcher image of `geom_std_dev`: explicitly given weights of a
different length fail to broadcast inside `np.power`/`np.dot` (ValueError);
otherwise a NaN in the sample contaminates the result to NaN. -/
noncomputable def geom_std_devEntry : StatEntry := fun data w extras =>
  match extras with
  | [] =>
      match w with
      | some wts =>
          if wts.length ≠ data.length then .error .valueError
          else
            match deNaN data with
            | none => .ok (.pf none)
            | some qs => .ok (.num (geom_std_dev qs (some wts)))
      | none =>
          match deNaN data with
          | none => .ok (.pf none)
          | some qs => .ok (.num (geom_std_dev qs none))
  | _ => .error .typeError

/-- Dispatcher image of `mode`; NaN-containing samples are approximated by a
NaN result (no claim exercises them). -/
def modeEntry : StatEntry := fun data w extras =>
  match extras with
  | [] =>
      match deNaN data with
      | none => .ok (.pf none)
      | some qs => (mode qs w).map (fun m => .pf (some m))
  | _ => .error .typeError

/-- Dispatcher image of `holder_mean` (`(data_lst, weights=None, power=1)`):
at most one string parameter is accepted, and it is coerced with `float`
inside `holder_mean` itself. -/
noncomputable def holder_meanEntry : StatEntry := fun data w extras =>
  let go : ℚ ⊕ String → Except PyError PyVal := fun power =>
    match deNaN data with
    | none => .ok (.pf none)
    | some qs => (holder_mean qs w power).map .num
  match extras with
  | [] => go (.inl 1)
  | [p] => go (.inr p)
  | _ => .error .typeError

/-- Dispatcher image of `sorted`: the function takes a single positional
parameter, but the dispatcher always passes `weights` as a second positional
argument, so every dispatched call raises TypeError. -/
def sortedEntry : StatEntry := fun _ _ _ => .error .typeError

/-- Dispatcher image of `flatten`: single-parameter signature, so the
dispatcher's extra positional `weights` argument raises TypeError. -/
def flattenEntry : StatEntry := fun _ _ _ => .error .typeError

/-- Dispatcher image of `n_numerical_modes` (`(data_lst, n, dl=0.1)`): the
dispatcher's positional `weights` lands in `n`, so `n` is `None` or a list and
both the `range(n-1)` and the `[-n:]` slice paths raise TypeError; a second
string parameter in `dl` does not change this. -/
def n_numerical_modesEntry : StatEntry := fun _ _ extras =>
  match extras with
  | [] => .error .typeError
  | [_] => .error .typeError
  | _ => .error .typeError

/-- Dispatcher image of `eigenvalues` (`(data_lst, symm=False, sort=False)`):
the dispatcher already supplies two positional arguments, so at most one
string parameter fits the three-parameter signature (more is an arity
TypeError); within arity, the 1-D sample accepted by the dispatcher is not a
square matrix, so `np.linalg.eigvals`/`eigvalsh` raise LinAlgError (a
ValueError subclass). -/
def eigenvaluesEntry : StatEntry := fun _ _ extras =>
  if extras.length > 1 then .error .typeError else .error .valueError

/-- Dispatcher image of `laplacian_kernel` (`(arr0, arr1, SIGMA)`): with no
parameter`SIGMA` is missing (TypeError); with one, `arr1` is `None` and the
subtraction raises TypeError; more parameters exceed the arity. -/
def laplacian_kernelEntry : StatEntry := fun _ _ _ => .error .typeError

/-- Dispatcher image of `gaussian_kernel`, as for `laplacian_kernel`. -/
def gaussian_kernelEntry : StatEntry := fun _ _ _ => .error .typeError

/-- Dispatcher image of `mro`, the method the class inherits through its
metaclass `type` — `getattr(PropertyStats, "mro")` finds it even though it is
no statistic. Bound to the class it takes no further positional arguments,
and the dispatcher always passes at least two, so every dispatched call
raises TypeError (`mro() takes no arguments`). -/
def mroEntry : StatEntry := fun _ _ _ => .error .typeError

end PropertyStats

/-- The statistic registry: the class's own statistic methods, as the
explicit name → function table the spec prescribes. (`getattr` resolves
slightly more than this — see `classAttrTable`.) -/
noncomputable def statTable : List (String × StatEntry) :=
  [("minimum", PropertyStats.minimumEntry),
   ("maximum", PropertyStats.maximumEntry),
   ("range", PropertyStats.rangeEntry),
   ("mean", PropertyStats.meanEntry),
   ("inverse_mean", PropertyStats.inverse_meanEntry),
   ("avg_dev", PropertyStats.avg_devEntry),
   ("std_dev", PropertyStats.std_devEntry),
   ("geom_std_dev", PropertyStats.geom_std_devEntry),
   ("mode", PropertyStats.modeEntry),
   ("n_numerical_modes", PropertyStats.n_numerical_modesEntry),
   ("holder_mean", PropertyStats.holder_meanEntry),
   ("sorted", PropertyStats.sortedEntry),
   ("eigenvalues", PropertyStats.eigenvaluesEntry),
   ("flatten", PropertyStats.flattenEntry),
   ("laplacian_kernel", PropertyStats.laplacian_kernelEntry),
   ("gaussian_kernel", PropertyStats.gaussian_kernelEntry)]

/-- Association-list lookup for the registry (first match wins). -/
def lookupStat : List (String × StatEntry) → String → Option StatEntry
  | [], _ => none
  | (k, f) :: rest, s => if s = k then some f else lookupStat rest s

/-- The registered statistic names. -/
noncomputable def statNames : List String := statTable.map Prod.fst

/-- Everything `getattr(PropertyStats, token)` can resolve for a token of the
dispatcher's `"__"` split: the statistic methods, plus the one attribute the
class inherits whose name survives the split — the metaclass method `mro`.
(A split token can never contain `"__"`, and every other attribute inherited
from `object` or `type` is a dunder containing `"__"`, so `mro` is the only
reachable non-statistic attribute.) -/
noncomputable def classAttrTable : List (String × StatEntry) :=
  statTable ++ [("mro", PropertyStats.mroEntry)]

/-- The attribute names `getattr` can resolve through the dispatcher. -/
noncomputable def classAttrNames : List String := classAttrTable.map Prod.fst

namespace PropertyStats

/-- `PropertyStats.calc_stat`: split the statistic identifier on `"__"`, look
the first token up with `getattr` — which resolves the statistic methods and
the inherited `mro`, and raises AttributeError otherwise — and call the
result as `f(data_lst, weights, *statistics[1:])`. -/
noncomputable def calc_stat (data_lst : List PFloat) (stat : String)
    (weights : Option (List ℚ) := none) : Except PyError PyVal :=
  let statistics := pySplitOnUU stat
  match lookupStat classAttrTable statistics.headI with
  | some f => f data_lst weights statistics.tail
  | none => .error .attributeError

end PropertyStats

example : PropertyStats.minimum [some 1, none] = .ok (some 1) := by
  norm_num [PropertyStats.minimum, PropertyStats.containsNan, PropertyStats.pyMin,
    PFloat.pyEq, PFloat.pyLt]
example : PropertyStats.minimum [none, some 1] = .ok none := by
  norm_num [PropertyStats.minimum, PropertyStats.containsNan, PropertyStats.pyMin,
    PFloat.pyEq, PFloat.pyLt]
example : PropertyStats.range [some 1, some 3, some 2] = .ok (some 2) := by
  norm_num [PropertyStats.range, PropertyStats.containsNan, PropertyStats.pyMin,
    PropertyStats.pyMax, PFloat.pyEq, PFloat.pyLt, PFloat.pyGt, PFloat.pSub,
    Bind.bind, Except.bind]

/-! Spec-side formulas, written from the spec's words, for comparison with the
embedded source definitions (refinement claims C4). -/

/-- From the spec: the population standard deviation, dividing by `n`. -/
noncomputable def popStdSpec (l : List ℚ) : ℝ :=
  Real.sqrt ((l.map (fun x : ℚ => ((x : ℝ) - (l.sum : ℝ) / (l.length : ℝ)) ^ 2)).sum /
    (l.length : ℝ))

/-- From the spec's contrast: the sample standard deviation, dividing by `n - 1`
(what `std_dev` is claimed NOT to be). -/
noncomputable def sampleStdSpec (l : List ℚ) : ℝ :=
  Real.sqrt ((l.map (fun x : ℚ => ((x : ℝ) - (l.sum : ℝ) / (l.length : ℝ)) ^ 2)).sum /
    ((l.length : ℝ) - 1))

/-- From the spec: the weighted arithmetic mean `Σ w_i·x_i / Σ w_i`. -/
noncomputable def weightedMeanSpec (l w : List ℚ) : ℝ :=
  (List.zipWith (fun (wi : ℚ) (xi : ℚ) => (wi : ℝ) * (xi : ℝ)) w l).sum / (w.sum : ℝ)

/-- From the spec: the reliability-weighted (Gatz–Smith) standard deviation
`sqrt(β · Σ w_i·(x_i − mean)²)` with `β = Σw / ((Σw)² − Σw²)`. -/
noncomputable def gatzSmithSpec (l w : List ℚ) : ℝ :=
  Real.sqrt (((w.sum : ℝ) / ((w.sum : ℝ) ^ 2 - (w.map (fun v : ℚ => (v : ℝ) ^ 2)).sum)) *
    (List.zipWith (fun (wi : ℚ) (xi : ℚ) => (wi : ℝ) * ((xi : ℝ) - weightedMeanSpec l w) ^ 2) w l).sum)

/-- From the spec's contrast: the population-weighted standard deviation
`sqrt(Σ w_i·(x_i − mean)² / Σw)` (what `std_dev` is claimed NOT to be). -/
noncomputable def popWeightedStdSpec (l w : List ℚ) : ℝ :=
  Real.sqrt ((List.zipWith (fun (wi : ℚ) (xi : ℚ) => (wi : ℝ) * ((xi : ℝ) - weightedMeanSpec l w) ^ 2)
    w l).sum / (w.sum : ℝ))

/-! Helper lemmas. -/

/-- `nan == x` is false for every float, so the source's NaN-membership test
never succeeds. -/
theorem containsNan_eq_false (l : List PFloat) : PropertyStats.containsNan l = false := by
  induction l with
  | nil => rfl
  | cons x xs ih =>
      cases x with
      | none => simpa [PropertyStats.containsNan, PFloat.pyEq] using ih
      | some a => simpa [PropertyStats.containsNan, PFloat.pyEq] using ih

theorem lookupStat_eq_none {t : List (String × StatEntry)} {s : String}
    (h : s ∉ t.map Prod.fst) : lookupStat t s = none := by
  induction t with
  | nil => rfl
  | cons p rest ih =>
      obtain ⟨k, f⟩ := p
      simp only [List.map_cons, List.mem_cons] at h
      push_neg at h
      simp [lookupStat, h.1, ih h.2]

theorem deNaN_map_some (qs : List ℚ) : deNaN (qs.map some) = some qs := by
  induction qs with
  | nil => rfl
  | cons q rest ih => simp [deNaN, ih]

theorem pSum_zip_mul (w qs : List ℚ) :
    pSum (List.zipWith (fun wi x => pMul (some wi) x) w (qs.map some)) =
      some ((List.zipWith (· * ·) w qs).sum) := by
  induction w generalizing qs with
  | nil => rfl
  | cons wi w ih =>
      cases qs with
      | nil => rfl
      | cons q qs =>
          rw [List.map_cons, List.zipWith_cons_cons, List.zipWith_cons_cons, List.sum_cons]
          have hc : pSum (pMul (some wi) (some q) ::
              List.zipWith (fun wi x => pMul (some wi) x) w (qs.map some)) =
              pAdd (pMul (some wi) (some q))
                (pSum (List.zipWith (fun wi x => pMul (some wi) x) w (qs.map some))) := rfl
          rw [hc, ih]
          rfl

theorem zip_one_mul (l : List PFloat) :
    List.zipWith (fun wi x => pMul (some wi) x) (List.replicate l.length 1) l = l := by
  induction l with
  | nil => rfl
  | cons x xs ih =>
      rw [List.length_cons, List.replicate_succ, List.zipWith_cons_cons, ih]
      cases x with
      | none => rfl
      | some a => simp [PFloat.pMul]

/-! Claim theorems. -/

/-- C2: claimed — `minimum`/`maximum`/`range` ignore weights and return NaN on a
NaN-contaminated sample via an explicit membership check. The code's check
`float("nan") in data_lst` never succeeds (NaN compares unequal to itself), so
on the sample `[1.0, nan]` all three functions fall through to `min`/`max`,
whose NaN-blind comparisons keep `1.0`: the code returns `1.0`/`1.0`/`0.0`
where the claim requires NaN. The last conjunct shows the membership test is
constantly false on every sample. -/
theorem claim_C2_bug :
    PropertyStats.minimum [some 1, none] = .ok (some 1) ∧
    PropertyStats.maximum [some 1, none] = .ok (some 1) ∧
    PropertyStats.range [some 1, none] = .ok (some 0) ∧
    ∀ l : List PFloat, PropertyStats.containsNan l = false := by
  refine ⟨?_, ?_, ?_, containsNan_eq_false⟩ <;>
    norm_num [PropertyStats.minimum, PropertyStats.maximum, PropertyStats.range,
      PropertyStats.containsNan, PropertyStats.pyMin, PropertyStats.pyMax,
      PFloat.pyEq, PFloat.pyLt, PFloat.pyGt, PFloat.pSub, Bind.bind, Except.bind]

/-- C9 counterexample: `"mro"` does not name a registered statistic function,
yet `calc_stat` on it does not raise AttributeError — `getattr` finds the
`mro` method inherited through the metaclass `type`, and the dispatched call
fails with TypeError (`mro() takes no arguments`) instead. -/
theorem claim_C9_counterexample :
    "mro" ∉ statNames ∧
    PropertyStats.calc_stat [some 1, some 2, some 3] "mro" none = .error .typeError ∧
    PropertyStats.calc_stat [some 1, some 2, some 3] "mro" none ≠
      .error .attributeError := by
  have he : PropertyStats.calc_stat [some 1, some 2, some 3] "mro" none =
      .error .typeError := rfl
  refine ⟨by decide, he, ?_⟩
  rw [he]
  simp

/-- C9 amended: `calc_stat` fails with the unknown-statistic error (`getattr`
raises AttributeError) whenever the first `"__"`-token of the identifier names
no attribute `getattr` can resolve — neither a registered statistic function
nor the inherited class-machinery method `mro` — for every sample and
weights; for the token `"mro"`, which names no registered statistic, the
lookup succeeds and the call fails with TypeError instead. -/
theorem claim_C9_amended (values : List PFloat) (weights : Option (List ℚ)) (stat : String)
    (h : (pySplitOnUU stat).headI ∉ classAttrNames) :
    PropertyStats.calc_stat values stat weights = .error .attributeError ∧
    ∀ (values' : List PFloat) (weights' : Option (List ℚ)),
      PropertyStats.calc_stat values' "mro" weights' = .error .typeError := by
  constructor
  · have h' : (pySplitOnUU stat).headI ∉ classAttrTable.map Prod.fst := h
    show (match lookupStat classAttrTable (pySplitOnUU stat).headI with
          | some f => f values weights (pySplitOnUU stat).tail
          | none => .error .attributeError) = .error .attributeError
    rw [lookupStat_eq_none h']
  · intro values' weights'
    rfl

/-- Witness for C9 at the spec's example name `"not_a_stat"`. -/
theorem claim_C9_witness :
    PropertyStats.calc_stat [some 1, some 2, some 3] "not_a_stat" none =
      .error .attributeError ∧
    ∀ (values' : List PFloat) (weights' : Option (List ℚ)),
      PropertyStats.calc_stat values' "mro" weights' = .error .typeError :=
  claim_C9_amended [some 1, some 2, some 3] none "not_a_stat" (by decide)

/-- C3 counterexample: `"sorted"` and `"n_numerical_modes"` are registered
statistic names, yet dispatching them with the default `weights=None` raises
TypeError instead of succeeding — `calc_stat` always passes `weights` as a
second positional argument, which `sorted(data_lst)` cannot accept and which
lands in `n_numerical_modes`'s `n` parameter. -/
theorem claim_C3_counterexample :
    "sorted" ∈ statNames ∧ "n_numerical_modes" ∈ statNames ∧
    PropertyStats.calc_stat [some 1, some 2, some 3] "sorted" none = .error .typeError ∧
    PropertyStats.calc_stat [some 1, some 2, some 3] "n_numerical_modes" none =
      .error .typeError :=
  ⟨by decide, by decide, rfl, rfl⟩

/-- C3 amended: every statistic function whose signature has a `weights`
parameter accepts `weights=None` and computes its unweighted formula, so
`calc_stat` with the default weights succeeds for those; but it does not
succeed for every registered name: `sorted` and `n_numerical_modes` (and
`flatten`) do not take weights as a second positional parameter, so the
dispatched call raises TypeError. -/
theorem claim_C3_amended (data : List PFloat) (qs : List ℚ) :
    (PropertyStats.calc_stat data "minimum" none =
      (PropertyStats.minimum data none).map PyVal.pf) ∧
    (PropertyStats.calc_stat data "maximum" none =
      (PropertyStats.maximum data none).map PyVal.pf) ∧
    (PropertyStats.calc_stat data "range" none =
      (PropertyStats.range data none).map PyVal.pf) ∧
    (PropertyStats.calc_stat data "mean" none =
      (PropertyStats.mean data none).map PyVal.pf) ∧
    (PropertyStats.calc_stat data "inverse_mean" none =
      (PropertyStats.inverse_mean data none).map PyVal.pf) ∧
    (PropertyStats.calc_stat data "avg_dev" none =
      (PropertyStats.avg_dev data none).map PyVal.pf) ∧
    (PropertyStats.calc_stat (qs.map some) "std_dev" none =
      .ok (.num (PropertyStats.std_dev qs none))) ∧
    (PropertyStats.calc_stat (qs.map some) "geom_std_dev" none =
      .ok (.num (PropertyStats.geom_std_dev qs none))) ∧
    (PropertyStats.calc_stat (qs.map some) "mode" none =
      (PropertyStats.mode qs none).map (fun m => PyVal.pf (some m))) ∧
    (PropertyStats.calc_stat (qs.map some) "holder_mean" none =
      .ok (.num (PropertyStats.holderQ qs none 1))) ∧
    (PropertyStats.calc_stat data "sorted" none = .error .typeError) ∧
    (PropertyStats.calc_stat data "n_numerical_modes" none = .error .typeError) ∧
    (PropertyStats.calc_stat data "flatten" none = .error .typeError) := by
  refine ⟨rfl, rfl, rfl, rfl, rfl, rfl, ?_, ?_, ?_, ?_, rfl, rfl, rfl⟩
  · show PropertyStats.std_devEntry (qs.map some) none [] = _
    simp [PropertyStats.std_devEntry, deNaN_map_some]
  · show PropertyStats.geom_std_devEntry (qs.map some) none [] = _
    simp [PropertyStats.geom_std_devEntry, deNaN_map_some]
  · show PropertyStats.modeEntry (qs.map some) none [] = _
    simp [PropertyStats.modeEntry, deNaN_map_some]
  · show PropertyStats.holder_meanEntry (qs.map some) none [] = _
    simp [PropertyStats.holder_meanEntry, deNaN_map_some, PropertyStats.holder_mean,
      Except.map]

/-- C1: `calc_stat` splits the identifier on `"__"`, the first token names the
statistic and the remaining tokens are forwarded positionally as strings,
coerced by the callee: dispatching `"minimum"` equals calling `minimum`
directly on every sample, and `"holder_mean__2"` on `[1,2,3]` yields the
quadratic mean `sqrt(mean([1,4,9]))` because `holder_mean` converts the string
`"2"` to the number 2 before use. -/
theorem claim_C1 :
    (∀ values : List PFloat,
      PropertyStats.calc_stat values "minimum" none =
        (PropertyStats.minimum values none).map PyVal.pf) ∧
    (∃ q : ℚ, PropertyStats.mean [some 1, some 4, some 9] none = .ok (some q) ∧
      PropertyStats.calc_stat [some 1, some 2, some 3] "holder_mean__2" none =
        .ok (.num (Real.sqrt (q : ℝ)))) := by
  refine ⟨fun values => rfl, ⟨14 / 3, ?_, ?_⟩⟩
  · norm_num [PropertyStats.mean, PFloat.pSum, PFloat.pAdd, PFloat.pDivQ]
    exact fun h => absurd h (by simp)
  · have h1 : PropertyStats.calc_stat [some 1, some 2, some 3] "holder_mean__2" none =
        (PropertyStats.holder_mean [1, 2, 3] none (.inr "2")).map PyVal.num := rfl
    have hf : PropertyStats.floatOfString "2" = some 2 := rfl
    have h3 : PropertyStats.holderQ [1, 2, 3] none 2 =
        Real.sqrt (((14 : ℚ) / 3 : ℚ) : ℝ) := by
      have e2 : ((2 : ℚ) : ℝ) = ((2 : ℕ) : ℝ) := by norm_num
      simp only [PropertyStats.holderQ]
      rw [if_neg (by norm_num : ¬ (2 : ℚ) = 0)]
      rw [List.map_cons, List.map_cons, List.map_cons, List.map_nil,
        List.sum_cons, List.sum_cons, List.sum_cons, List.sum_nil]
      rw [e2, Real.rpow_natCast, Real.rpow_natCast, Real.rpow_natCast, Real.sqrt_eq_rpow]
      norm_num
    have h2 : PropertyStats.holder_mean [1, 2, 3] none (.inr "2") =
        .ok (PropertyStats.holderQ [1, 2, 3] none 2) := by
      simp [PropertyStats.holder_mean, hf]
    rw [h1, h2, h3]
    rfl

theorem mapM_pyRecip_ok (qs : List ℚ) (hz : ∀ x ∈ qs, x ≠ 0) :
    (qs.map some).mapM PropertyStats.pyRecip = .ok ((qs.map (fun x => 1 / x)).map some) := by
  induction qs with
  | nil => rfl
  | cons q rest ih =>
      have hq : q ≠ 0 := hz q (by simp)
      rw [List.map_cons, List.mapM_cons, ih (fun x hx => hz x (by simp [hx]))]
      simp [PropertyStats.pyRecip, hq, Bind.bind, Except.bind, Pure.pure, Except.pure]

theorem mapM_pyRecip_zero {l : List PFloat} (h : some 0 ∈ l) :
    l.mapM PropertyStats.pyRecip = .error .zeroDivisionError := by
  induction l with
  | nil => cases h
  | cons x xs ih =>
      rcases List.mem_cons.mp h with hx | hx
      · rw [← hx, List.mapM_cons]
        simp [PropertyStats.pyRecip, Bind.bind, Except.bind]
      · rw [List.mapM_cons]
        have hxs : List.mapM.loop PropertyStats.pyRecip xs [] =
            Except.error PyError.zeroDivisionError := ih hx
        cases x with
        | none => simp [PropertyStats.pyRecip, hxs, Bind.bind, Except.bind]
        | some a =>
            by_cases ha : a = 0
            · rw [ha]
              simp [PropertyStats.pyRecip, Bind.bind, Except.bind]
            · simp [PropertyStats.pyRecip, ha, hxs, Bind.bind, Except.bind]

/-- C6 counterexample: on the sample `[0.0]` the source raises
ZeroDivisionError (Python float division by a zero float raises; it does not
produce IEEE infinity), so no value — infinite or otherwise — is returned. -/
theorem claim_C6_counterexample :
    PropertyStats.inverse_mean [some 0] none = .error .zeroDivisionError ∧
    ∀ y : PFloat, PropertyStats.inverse_mean [some 0] none ≠ .ok y := by
  have h : PropertyStats.inverse_mean [some 0] none = .error .zeroDivisionError := by
    have hxs : List.mapM.loop PropertyStats.pyRecip [some 0] [] =
        Except.error PyError.zeroDivisionError := mapM_pyRecip_zero (by simp)
    simp [PropertyStats.inverse_mean, hxs, Bind.bind, Except.bind]
  exact ⟨h, fun y hy => by rw [h] at hy; cases hy⟩

/-- C6 amended: `inverse_mean(values, weights)` equals the weighted arithmetic
mean of the reciprocals `1/x_i`; there is no special-case guard for zero, but
a zero element makes the plain Python division `1.0 / x` raise
ZeroDivisionError (a plain float zero does not yield IEEE infinity), so the
call fails rather than returning an infinite result. -/
theorem claim_C6_amended (qs : List ℚ) (w : Option (List ℚ)) (l : List PFloat)
    (hz : ∀ x ∈ qs, x ≠ 0) (h0 : some 0 ∈ l) :
    PropertyStats.inverse_mean (qs.map some) w =
      PropertyStats.mean ((qs.map (fun x => 1 / x)).map some) w ∧
    PropertyStats.inverse_mean l w = .error .zeroDivisionError := by
  constructor
  · have hok : List.mapM.loop PropertyStats.pyRecip (qs.map some) [] =
        Except.ok ((qs.map (fun x => 1 / x)).map some) := mapM_pyRecip_ok qs hz
    simp [PropertyStats.inverse_mean, hok, Bind.bind, Except.bind]
  · have hxs : List.mapM.loop PropertyStats.pyRecip l [] =
        Except.error PyError.zeroDivisionError := mapM_pyRecip_zero h0
    simp [PropertyStats.inverse_mean, hxs, Bind.bind, Except.bind]

/-- Witness for C6 at the concrete inputs `[2, 4]` (zero-free) and `[0.0]`. -/
theorem claim_C6_witness :
    PropertyStats.inverse_mean ([2, 4].map some) none =
      PropertyStats.mean (([2, 4].map (fun x : ℚ => 1 / x)).map some) none ∧
    PropertyStats.inverse_mean [some 0] none = .error .zeroDivisionError :=
  claim_C6_amended [2, 4] none [some 0] (by norm_num) (by simp)

theorem cast_sum_zipWith_mul (w x : List ℚ) :
    (((List.zipWith (· * ·) w x).sum : ℚ) : ℝ) =
      (List.zipWith (fun (wi : ℚ) (xi : ℚ) => (wi : ℝ) * (xi : ℝ)) w x).sum := by
  induction w generalizing x with
  | nil => simp
  | cons a w ih =>
      cases x with
      | nil => simp
      | cons b x =>
          rw [List.zipWith_cons_cons, List.zipWith_cons_cons, List.sum_cons, List.sum_cons,
            ← ih]
          push_cast
          ring

/-- C8: `holder_mean(x, w, power=1)` equals `mean(x, w)` (the weighted
arithmetic mean `Σw_i·x_i / Σw_i`) for valid weight vectors, and
`mean(x, None)` equals `mean(x, [1]*len(x))` for nonempty samples. -/
theorem claim_C8 :
    (∀ (x w : List ℚ), x.length = w.length → w.sum ≠ 0 →
      ∃ q : ℚ, PropertyStats.mean (x.map some) (some w) = .ok (some q) ∧
        PropertyStats.holder_mean x (some w) (.inl 1) = .ok ((q : ℝ))) ∧
    (∀ l : List PFloat, l ≠ [] →
      PropertyStats.mean l none = PropertyStats.mean l (some (List.replicate l.length 1))) := by
  constructor
  · intro x w hlen hw
    refine ⟨(List.zipWith (· * ·) w x).sum / w.sum, ?_, ?_⟩
    · simp only [PropertyStats.mean]
      rw [if_neg (by simp [hlen]), if_neg (by simpa using hw), pSum_zip_mul]
      rfl
    · have h1 : PropertyStats.holder_mean x (some w) (.inl 1) =
          .ok (PropertyStats.holderQ x (some w) 1) := rfl
      have h2 : PropertyStats.holderQ x (some w) 1 =
          (((List.zipWith (· * ·) w x).sum / w.sum : ℚ) : ℝ) := by
        simp only [PropertyStats.holderQ]
        rw [if_neg one_ne_zero]
        simp only [Rat.cast_one, one_div_one, Real.rpow_one]
        rw [Rat.cast_div, cast_sum_zipWith_mul]
      rw [h1, h2]
  · intro l hl
    have hlen : (List.replicate l.length (1 : ℚ)).sum = (l.length : ℚ) := by
      simp [List.sum_replicate, nsmul_eq_mul]
    simp only [PropertyStats.mean]
    rw [if_neg hl, if_neg (by simp), if_neg (by
      rw [hlen]
      exact Nat.cast_ne_zero.mpr (fun h0 => hl (List.length_eq_zero.mp h0))),
      zip_one_mul, hlen]

/-- Witness for C8 at `x = [1, 2]`, `w = [1, 1]` and `l = [3.0]`. -/
theorem claim_C8_witness :
    (∃ q : ℚ, PropertyStats.mean ([1, 2].map some) (some [1, 1]) = .ok (some q) ∧
      PropertyStats.holder_mean [1, 2] (some [1, 1]) (.inl 1) = .ok ((q : ℝ))) ∧
    PropertyStats.mean [some 3] none =
      PropertyStats.mean [some 3] (some (List.replicate ([some 3] : List PFloat).length 1)) :=
  ⟨claim_C8.1 [1, 2] [1, 1] rfl (by norm_num [List.sum_cons, List.sum_nil]),
   claim_C8.2 [some 3] (by simp)⟩

theorem cast_npVar (l : List ℚ) :
    ((PropertyStats.npVar l : ℚ) : ℝ) =
      (l.map (fun x : ℚ => ((x : ℝ) - (l.sum : ℝ) / (l.length : ℝ)) ^ 2)).sum /
        (l.length : ℝ) := by
  simp only [PropertyStats.npVar]
  rw [Rat.cast_div, Rat.cast_list_sum, List.map_map, Rat.cast_natCast]
  congr 1
  refine congrArg List.sum (List.map_congr_left ?_)
  intro x hx
  simp only [Function.comp_apply]
  push_cast
  ring

theorem cast_sum_zip_dev (l w : List ℚ) (mu : ℚ) :
    (((List.zipWith (· * ·) (l.map (fun x => (x - mu) ^ 2)) w).sum : ℚ) : ℝ) =
      (List.zipWith (fun (wi : ℚ) (xi : ℚ) => (wi : ℝ) * ((xi : ℝ) - (mu : ℝ)) ^ 2)
        w l).sum := by
  induction l generalizing w with
  | nil => cases w <;> simp
  | cons a l ih =>
      cases w with
      | nil => simp
      | cons b w =>
          rw [List.map_cons, List.zipWith_cons_cons, List.zipWith_cons_cons,
            List.sum_cons, List.sum_cons]
          push_cast [ih]
          ring

/-- C4: unweighted `std_dev` is the population standard deviation (divide by
`n`, not `n−1`; the spec's example evaluates to exactly 2 and differs from the
sample formula), and weighted `std_dev` is the reliability-weighted
(Gatz–Smith) estimator `sqrt(β·Σw_i(x_i−μ)²)` with `β = Σw/((Σw)²−Σw²)`,
which differs from the population-weighted estimator. -/
theorem claim_C4 :
    (∀ l : List ℚ, PropertyStats.std_dev l none = popStdSpec l) ∧
    PropertyStats.std_dev [2, 4, 4, 4, 5, 5, 7, 9] none = 2 ∧
    PropertyStats.std_dev [2, 4, 4, 4, 5, 5, 7, 9] none ≠
      sampleStdSpec [2, 4, 4, 4, 5, 5, 7, 9] ∧
    (∀ l w : List ℚ, PropertyStats.std_dev l (some w) = gatzSmithSpec l w) ∧
    PropertyStats.std_dev [0, 2] (some [1, 1]) ≠ popWeightedStdSpec [0, 2] [1, 1] := by
  have hv : PropertyStats.npVar [2, 4, 4, 4, 5, 5, 7, 9] = 4 := by
    norm_num [PropertyStats.npVar]
  have h2 : PropertyStats.std_dev [2, 4, 4, 4, 5, 5, 7, 9] none = 2 := by
    simp only [PropertyStats.std_dev]
    rw [hv, show ((4 : ℚ) : ℝ) = (2 : ℝ) ^ 2 by norm_num]
    exact Real.sqrt_sq (by norm_num)
  refine ⟨?_, h2, ?_, ?_, ?_⟩
  · intro l
    simp only [PropertyStats.std_dev, popStdSpec]
    rw [cast_npVar]
  · have hs : sampleStdSpec [2, 4, 4, 4, 5, 5, 7, 9] = Real.sqrt (32 / 7) := by
      norm_num [sampleStdSpec]
    rw [h2, hs]
    intro h
    have hsq := congrArg (fun t => t ^ 2) h
    simp only at hsq
    rw [Real.sq_sqrt (by norm_num : (0 : ℝ) ≤ 32 / 7)] at hsq
    norm_num at hsq
  · intro l w
    have hmu : (((List.zipWith (· * ·) w l).sum / w.sum : ℚ) : ℝ) =
        (List.zipWith (fun (wi : ℚ) (xi : ℚ) => (wi : ℝ) * (xi : ℝ)) w l).sum /
          (w.sum : ℝ) := by
      rw [Rat.cast_div, cast_sum_zipWith_mul]
    simp only [PropertyStats.std_dev, gatzSmithSpec, weightedMeanSpec]
    congr 1
    rw [cast_sum_zip_dev, hmu]
    congr 1
    push_cast [Rat.cast_list_sum, List.map_map]
    refine congrArg
      (fun t : ℝ => (List.map Rat.cast w).sum / ((List.map Rat.cast w).sum ^ 2 - t)) ?_
    refine congrArg List.sum (List.map_congr_left ?_)
    intro v hv2
    simp only [Function.comp_apply]
    push_cast
    ring
  · have h1 : PropertyStats.std_dev [0, 2] (some [1, 1]) = Real.sqrt ((2 : ℚ) : ℝ) := by
      norm_num [PropertyStats.std_dev]
    have hp : popWeightedStdSpec [0, 2] [1, 1] = Real.sqrt 1 := by
      norm_num [popWeightedStdSpec, weightedMeanSpec]
    rw [h1, hp, Real.sqrt_one]
    intro h
    have hsq := congrArg (fun t => t ^ 2) h
    simp only at hsq
    rw [Real.sq_sqrt (by norm_num : (0 : ℝ) ≤ ((2 : ℚ) : ℝ))] at hsq
    norm_num at hsq

theorem foldlMin_mem (v : ℚ) (vs : List ℚ) : vs.foldl min v ∈ v :: vs := by
  induction vs generalizing v with
  | nil => simp
  | cons a vs ih =>
      rw [List.foldl_cons]
      rcases List.mem_cons.mp (ih (min v a)) with hm | hm
      · rw [hm]
        rcases min_choice v a with h | h <;> rw [h] <;> simp
      · exact List.mem_cons_of_mem _ (List.mem_cons_of_mem _ hm)

theorem foldlMin_le (v : ℚ) (vs : List ℚ) : ∀ x ∈ v :: vs, vs.foldl min v ≤ x := by
  induction vs generalizing v with
  | nil => intro x hx; rw [List.mem_singleton] at hx; simp [hx]
  | cons a vs ih =>
      intro x hx
      rw [List.foldl_cons]
      rcases List.mem_cons.mp hx with hx1 | hx2
      · rw [hx1]
        exact le_trans (ih (min v a) (min v a) (by simp)) (min_le_left v a)
      · rcases List.mem_cons.mp hx2 with hx1 | hx3
        · rw [hx1]
          exact le_trans (ih (min v a) (min v a) (by simp)) (min_le_right v a)
        · exact ih (min v a) x (by simp [hx3])

theorem foldlMax_mem (v : ℚ) (vs : List ℚ) : vs.foldl max v ∈ v :: vs := by
  induction vs generalizing v with
  | nil => simp
  | cons a vs ih =>
      rw [List.foldl_cons]
      rcases List.mem_cons.mp (ih (max v a)) with hm | hm
      · rw [hm]
        rcases max_choice v a with h | h <;> rw [h] <;> simp
      · exact List.mem_cons_of_mem _ (List.mem_cons_of_mem _ hm)

theorem foldlMax_ge (v : ℚ) (vs : List ℚ) : ∀ x ∈ v :: vs, x ≤ vs.foldl max v := by
  induction vs generalizing v with
  | nil => intro x hx; rw [List.mem_singleton] at hx; simp [hx]
  | cons a vs ih =>
      intro x hx
      rw [List.foldl_cons]
      rcases List.mem_cons.mp hx with hx1 | hx2
      · rw [hx1]
        exact le_trans (le_max_left v a) (ih (max v a) (max v a) (by simp))
      · rcases List.mem_cons.mp hx2 with hx1 | hx3
        · rw [hx1]
          exact le_trans (le_max_right v a) (ih (max v a) (max v a) (by simp))
        · exact ih (max v a) x (by simp [hx3])

theorem qMax_mem {w : List ℚ} (hw : w ≠ []) : PropertyStats.qMax w ∈ w := by
  cases w with
  | nil => exact absurd rfl hw
  | cons v vs => exact foldlMax_mem v vs

theorem qMax_ge {w : List ℚ} (hw : w ≠ []) : ∀ x ∈ w, x ≤ PropertyStats.qMax w := by
  cases w with
  | nil => exact absurd rfl hw
  | cons v vs => exact foldlMax_ge v vs

theorem isclose_self (a : ℚ) : PropertyStats.isclose a a = true := by
  simp only [PropertyStats.isclose, sub_self, abs_zero, decide_eq_true_eq]
  positivity

theorem exists_zip_snd {l w : List ℚ} (h : w.length = l.length) {b : ℚ} (hb : b ∈ w) :
    ∃ p ∈ List.zip l w, p.2 = b := by
  induction w generalizing l with
  | nil => cases hb
  | cons c w ih =>
      cases l with
      | nil => cases h
      | cons a l =>
          rcases List.mem_cons.mp hb with rfl | hb2
          · exact ⟨(a, b), by simp [List.zip_cons_cons], rfl⟩
          · obtain ⟨p, hp, hpb⟩ := ih (by simpa using h) hb2
            exact ⟨p, by simp [List.zip_cons_cons, hp], hpb⟩

/-- C5: unweighted `mode` returns the most frequent value, breaking ties by
the smallest such value (e.g. `mode([1,1,2,3]) = 1`); weighted `mode` selects
every position whose weight is within the `np.isclose` tolerance of the
maximum weight — approximate, not exact, equality, as the `[1, 1-1e-9]`
example shows — and returns the minimum value among those positions. -/
theorem claim_C5 :
    (∀ l : List ℚ, l ≠ [] → ∃ m : ℚ, PropertyStats.mode l none = .ok m ∧ m ∈ l ∧
      (∀ v ∈ l, l.count v ≤ l.count m) ∧ (∀ v ∈ l, l.count v = l.count m → m ≤ v)) ∧
    PropertyStats.mode [1, 1, 2, 3] none = .ok 1 ∧
    PropertyStats.mode [1, 2, 2, 3] (some [1, 5, 5, 1]) = .ok 2 ∧
    PropertyStats.mode [5, 3] (some [1, 1 - 1 / 1000000000]) = .ok 3 ∧
    (∀ l w : List ℚ, w ≠ [] → w.length = l.length →
      (∀ x ∈ w, x ≤ PropertyStats.qMax w) ∧
      ∃ m : ℚ, PropertyStats.mode l (some w) = .ok m ∧
        (∃ p ∈ List.zip l w, p.1 = m ∧
          PropertyStats.isclose p.2 (PropertyStats.qMax w) = true) ∧
        (∀ p ∈ List.zip l w, PropertyStats.isclose p.2 (PropertyStats.qMax w) = true →
          m ≤ p.1)) := by
  refine ⟨?_, ?_, ?_, ?_, ?_⟩
  · intro l hl
    have hne : (l.dedup.insertionSort (· ≤ ·)) ≠ [] := by
      intro h
      have hlen := List.length_insertionSort (· ≤ ·) l.dedup
      rw [h] at hlen
      exact hl ((List.dedup_eq_nil l).mp (List.length_eq_zero.mp hlen.symm))
    obtain ⟨m, hm⟩ :
        ∃ m, (l.dedup.insertionSort (· ≤ ·)).argmax (fun v => l.count v) = some m := by
      cases h : (l.dedup.insertionSort (· ≤ ·)).argmax (fun v => l.count v) with
      | some m => exact ⟨m, rfl⟩
      | none => exact absurd (List.argmax_eq_none.mp h) hne
    have hmem_us : m ∈ l.dedup.insertionSort (· ≤ ·) := List.argmax_mem hm
    have hmem : m ∈ l := (List.mem_dedup).mp ((List.mem_insertionSort _).mp hmem_us)
    refine ⟨m, ?_, hmem, ?_, ?_⟩
    · simp only [PropertyStats.mode, hm]
    · intro v hv
      exact List.le_of_mem_argmax
        ((List.mem_insertionSort _).mpr ((List.mem_dedup).mpr hv)) hm
    · intro v hv hcnt
      have hv_us : v ∈ l.dedup.insertionSort (· ≤ ·) :=
        (List.mem_insertionSort _).mpr ((List.mem_dedup).mpr hv)
      have hidx := List.index_of_argmax hm hv_us (le_of_eq hcnt.symm)
      have hsorted : (l.dedup.insertionSort (· ≤ ·)).Sorted (· ≤ ·) :=
        List.sorted_insertionSort _ _
      have hm_lt : (l.dedup.insertionSort (· ≤ ·)).indexOf m <
          (l.dedup.insertionSort (· ≤ ·)).length := List.indexOf_lt_length.mpr hmem_us
      have hv_lt : (l.dedup.insertionSort (· ≤ ·)).indexOf v <
          (l.dedup.insertionSort (· ≤ ·)).length := List.indexOf_lt_length.mpr hv_us
      have hrel := hsorted.rel_get_of_le
        (a := ⟨(l.dedup.insertionSort (· ≤ ·)).indexOf m, hm_lt⟩)
        (b := ⟨(l.dedup.insertionSort (· ≤ ·)).indexOf v, hv_lt⟩) hidx
      rw [List.indexOf_get, List.indexOf_get] at hrel
      exact hrel
  · norm_num [PropertyStats.mode, List.dedup_cons_of_mem, List.dedup_cons_of_not_mem,
      List.insertionSort, List.orderedInsert, List.argmax, List.argAux,
      List.count_cons, List.count_nil]
  · norm_num [PropertyStats.mode, PropertyStats.isclose, PropertyStats.qMax,
      List.zip_cons_cons, List.filter_cons, max_def, abs_of_nonneg, abs_of_nonpos]
    exact fun h => absurd h (by simp)
  · norm_num [PropertyStats.mode, PropertyStats.isclose, PropertyStats.qMax,
      List.zip_cons_cons, List.filter_cons, max_def, abs_of_nonneg, abs_of_nonpos]
    exact fun h => absurd h (by simp)
  · intro l w hw hlen
    refine ⟨qMax_ge hw, ?_⟩
    obtain ⟨p0, hp0, hp0b⟩ := exists_zip_snd hlen (qMax_mem hw)
    have hp0f : p0 ∈ (List.zip l w).filter
        (fun p => PropertyStats.isclose p.2 (PropertyStats.qMax w)) :=
      List.mem_filter.mpr ⟨hp0, by rw [hp0b]; exact isclose_self _⟩
    cases hsel : ((List.zip l w).filter
        (fun p => PropertyStats.isclose p.2 (PropertyStats.qMax w))).map Prod.fst with
    | nil =>
        exact absurd (List.mem_map_of_mem Prod.fst hp0f)
          (by rw [hsel]; exact List.not_mem_nil _)
    | cons v vs =>
        refine ⟨vs.foldl min v, ?_, ?_, ?_⟩
        · simp only [PropertyStats.mode, if_neg hw, if_neg (not_not_intro hlen), hsel]
        · have hmm := foldlMin_mem v vs
          rw [← hsel] at hmm
          obtain ⟨p, hp, hpe⟩ := List.mem_map.mp hmm
          have hpf := List.mem_filter.mp hp
          exact ⟨p, hpf.1, hpe, hpf.2⟩
        · intro p hp hclose
          have hmem2 : p.1 ∈ ((List.zip l w).filter
              fun p => PropertyStats.isclose p.2 (PropertyStats.qMax w)).map Prod.fst :=
            List.mem_map_of_mem Prod.fst (List.mem_filter.mpr ⟨hp, hclose⟩)
          rw [hsel] at hmem2
          exact foldlMin_le v vs p.1 hmem2

/-- Witness for C5 at `[4, 4, 6]` (unweighted) and `[8, 9]` with weights
`[2, 3]` (weighted). -/
theorem claim_C5_witness :
    (∃ m : ℚ, PropertyStats.mode [4, 4, 6] none = .ok m ∧ m ∈ ([4, 4, 6] : List ℚ) ∧
      (∀ v ∈ ([4, 4, 6] : List ℚ),
        ([4, 4, 6] : List ℚ).count v ≤ ([4, 4, 6] : List ℚ).count m) ∧
      (∀ v ∈ ([4, 4, 6] : List ℚ),
        ([4, 4, 6] : List ℚ).count v = ([4, 4, 6] : List ℚ).count m → m ≤ v)) ∧
    ((∀ x ∈ ([2, 3] : List ℚ), x ≤ PropertyStats.qMax [2, 3]) ∧
      ∃ m : ℚ, PropertyStats.mode [8, 9] (some [2, 3]) = .ok m ∧
        (∃ p ∈ List.zip ([8, 9] : List ℚ) ([2, 3] : List ℚ), p.1 = m ∧
          PropertyStats.isclose p.2 (PropertyStats.qMax [2, 3]) = true) ∧
        (∀ p ∈ List.zip ([8, 9] : List ℚ) ([2, 3] : List ℚ),
          PropertyStats.isclose p.2 (PropertyStats.qMax [2, 3]) = true → m ≤ p.1)) :=
  ⟨claim_C5.1 [4, 4, 6] (by simp), claim_C5.2.2.2.2 [8, 9] [2, 3] (by simp) rfl⟩

theorem dedup_const (x : ℚ) (l : List ℚ) (h : ∀ y ∈ l, y = x) : (x :: l).dedup = [x] := by
  induction l with
  | nil => simp
  | cons z l ih =>
      have hz : z = x := h z (by simp)
      rw [hz]
      rw [List.dedup_cons_of_mem (List.mem_cons_self x l)]
      exact ih (fun y hy => h y (by simp [hy]))

theorem n_modes_degenerate (x : ℚ) (l : List ℚ) (n : ℕ) (dl : ℚ) (h : ∀ y ∈ l, y = x) :
    PropertyStats.n_numerical_modes (x :: l) n dl =
      some x :: List.replicate (n - 1) none := by
  simp only [PropertyStats.n_numerical_modes, dedup_const x l h]
  simp

theorem argsortAsc_length (hist : List ℕ) :
    (PropertyStats.argsortAsc hist).length = hist.length := by
  rw [PropertyStats.argsortAsc, List.length_insertionSort, List.length_range]

theorem no_padding_aux (modes : List ℚ) (n : ℕ) (h : modes.length = n) :
    (modes.map some ++ List.replicate (n - modes.length) none).length = n ∧
    ∀ e ∈ modes.map some ++ List.replicate (n - modes.length) none, e ≠ none := by
  constructor
  · rw [List.length_append, List.length_map, h, Nat.sub_self, List.replicate_zero]
    simp
  · intro e he
    rw [h, Nat.sub_self, List.replicate_zero, List.append_nil] at he
    obtain ⟨q, _, hq⟩ := List.mem_map.mp he
    rw [← hq]
    simp

theorem n_modes_no_padding (data : List ℚ) (n : ℕ) (dl : ℚ)
    (hdeg : data.dedup.length ≠ 1) (hn : 1 ≤ n)
    (hbins : n ≤ (PropertyStats.histCounts data
      (PropertyStats.aRange (PropertyStats.qMin data) (PropertyStats.qMax data) dl)).length) :
    (PropertyStats.n_numerical_modes data n dl).length = n ∧
    ∀ e ∈ PropertyStats.n_numerical_modes data n dl, e ≠ none := by
  have hlen : (PropertyStats.lastSlice (PropertyStats.argsortAsc (PropertyStats.histCounts data
      (PropertyStats.aRange (PropertyStats.qMin data) (PropertyStats.qMax data) dl))) n).length
      = n := by
    rw [PropertyStats.lastSlice, if_neg (by omega : ¬ n = 0), List.length_drop,
      argsortAsc_length]
    omega
  simp only [PropertyStats.n_numerical_modes, if_neg hdeg]
  refine no_padding_aux _ n ?_
  rw [List.length_reverse, List.length_map, hlen]

theorem n_modes_order (hist : List ℕ) (n : ℕ) :
    ((PropertyStats.lastSlice (PropertyStats.argsortAsc hist) n).reverse).Pairwise
      (fun i j => hist.getD j 0 ≤ hist.getD i 0) := by
  have hs : (PropertyStats.argsortAsc hist).Sorted (PropertyStats.argKey hist) :=
    List.sorted_insertionSort _ _
  have hp : (PropertyStats.argsortAsc hist).Pairwise
      (fun i j => hist.getD i 0 ≤ hist.getD j 0) := by
    refine hs.imp ?_
    intro i j hij
    rcases hij with h | ⟨h, _⟩
    · exact le_of_lt h
    · exact le_of_eq h
  have hsub : (PropertyStats.lastSlice (PropertyStats.argsortAsc hist) n).Sublist
      (PropertyStats.argsortAsc hist) := by
    rw [PropertyStats.lastSlice]
    split
    · exact List.Sublist.refl _
    · exact List.drop_sublist _ _
  have hp2 := hp.sublist hsub
  rw [List.pairwise_reverse]
  exact hp2

/-- C7 counterexample: on `[0, 3]` with `n = 2`, `bin_width = 1` there is only
one non-empty bin (`hist = [1, 0]`), yet the result `[0.0, 1.0]` contains no
NaN: the code pads only when the total number of bins is below `n`, returning
left edges of empty bins instead of NaN. -/
theorem claim_C7_counterexample :
    PropertyStats.n_numerical_modes [0, 3] 2 1 = [some 0, some 1] ∧
    ¬ (none ∈ PropertyStats.n_numerical_modes [0, 3] 2 1) ∧
    PropertyStats.histCounts [0, 3]
      (PropertyStats.aRange (PropertyStats.qMin [0, 3]) (PropertyStats.qMax [0, 3]) 1) =
      [1, 0] := by
  have hceil : (⌈((3 : ℚ) - 0) / 1⌉ : ℤ) = 3 := by norm_num
  have h1 : PropertyStats.n_numerical_modes [0, 3] 2 1 = [some 0, some 1] := by
    simp [PropertyStats.n_numerical_modes, PropertyStats.aRange, PropertyStats.histCounts,
      PropertyStats.argsortAsc, PropertyStats.argKey, PropertyStats.lastSlice,
      PropertyStats.qMin, PropertyStats.qMax, hceil,
      List.range_succ, List.insertionSort, List.orderedInsert, List.getD, List.filter_cons]
    norm_num [List.getD]
  refine ⟨h1, by rw [h1]; simp, ?_⟩
  simp [PropertyStats.histCounts, PropertyStats.aRange, PropertyStats.qMin,
    PropertyStats.qMax, hceil, List.range_succ, List.getD, List.filter_cons]
  norm_num [List.getD]

/-- C7 amended: the degenerate all-identical case returns the value followed
by `n−1` NaNs (e.g. `[5,5,5,5]` with `n = 3` gives `[5, NaN, NaN]`); otherwise
the result lists the left edges of the `n` largest-count bins in descending
count order; NaN padding occurs exactly when the histogram has fewer than `n`
bins in total — zero-count bins are not skipped, so with at least `n` bins the
result has no NaN even if fewer than `n` bins are non-empty (e.g.
`[0,3]`, `n = 4`, `bin_width = 1` gives `[0, 1, NaN, NaN]` from 2 bins). -/
theorem claim_C7_amended (x : ℚ) (l data : List ℚ) (n n' : ℕ) (dl dl' : ℚ)
    (hall : ∀ y ∈ l, y = x) (hdeg : data.dedup.length ≠ 1) (hn : 1 ≤ n')
    (hbins : n' ≤ (PropertyStats.histCounts data (PropertyStats.aRange
      (PropertyStats.qMin data) (PropertyStats.qMax data) dl')).length) :
    PropertyStats.n_numerical_modes (x :: l) n dl =
      some x :: List.replicate (n - 1) none ∧
    PropertyStats.n_numerical_modes [5, 5, 5, 5] 3 (1 / 10) = [some 5, none, none] ∧
    PropertyStats.n_numerical_modes [0, 3] 4 1 = [some 0, some 1, none, none] ∧
    (PropertyStats.n_numerical_modes data n' dl').length = n' ∧
    (∀ e ∈ PropertyStats.n_numerical_modes data n' dl', e ≠ none) ∧
    ((PropertyStats.lastSlice (PropertyStats.argsortAsc (PropertyStats.histCounts data
        (PropertyStats.aRange (PropertyStats.qMin data) (PropertyStats.qMax data) dl')))
        n').reverse).Pairwise
      (fun i j =>
        (PropertyStats.histCounts data (PropertyStats.aRange (PropertyStats.qMin data)
          (PropertyStats.qMax data) dl')).getD j 0 ≤
        (PropertyStats.histCounts data (PropertyStats.aRange (PropertyStats.qMin data)
          (PropertyStats.qMax data) dl')).getD i 0) := by
  have hceil : (⌈((3 : ℚ) - 0) / 1⌉ : ℤ) = 3 := by norm_num
  refine ⟨n_modes_degenerate x l n dl hall, ?_, ?_,
    (n_modes_no_padding data n' dl' hdeg hn hbins).1,
    (n_modes_no_padding data n' dl' hdeg hn hbins).2, n_modes_order _ _⟩
  · simp [PropertyStats.n_numerical_modes, List.replicate]
  · simp [PropertyStats.n_numerical_modes, PropertyStats.aRange, PropertyStats.histCounts,
      PropertyStats.argsortAsc, PropertyStats.argKey, PropertyStats.lastSlice,
      PropertyStats.qMin, PropertyStats.qMax, hceil,
      List.range_succ, List.insertionSort, List.orderedInsert, List.getD, List.filter_cons,
      List.replicate]
    norm_num [List.getD]

/-- Witness for C7: degenerate case at `[5, 5, 5, 5]` with `n = 3` and the
non-degenerate no-padding case at `[0, 3]`, `n = 2`, `bin_width = 1`. -/
theorem claim_C7_witness :
    PropertyStats.n_numerical_modes ((5 : ℚ) :: [5, 5, 5]) 3 (1 / 10) =
      some 5 :: List.replicate (3 - 1) none ∧
    PropertyStats.n_numerical_modes [5, 5, 5, 5] 3 (1 / 10) = [some 5, none, none] ∧
    PropertyStats.n_numerical_modes [0, 3] 4 1 = [some 0, some 1, none, none] ∧
    (PropertyStats.n_numerical_modes [0, 3] 2 1).length = 2 ∧
    (∀ e ∈ PropertyStats.n_numerical_modes [0, 3] 2 1, e ≠ none) ∧
    ((PropertyStats.lastSlice (PropertyStats.argsortAsc (PropertyStats.histCounts [0, 3]
        (PropertyStats.aRange (PropertyStats.qMin [0, 3]) (PropertyStats.qMax [0, 3]) 1)))
        2).reverse).Pairwise
      (fun i j =>
        (PropertyStats.histCounts [0, 3] (PropertyStats.aRange (PropertyStats.qMin [0, 3])
          (PropertyStats.qMax [0, 3]) 1)).getD j 0 ≤
        (PropertyStats.histCounts [0, 3] (PropertyStats.aRange (PropertyStats.qMin [0, 3])
          (PropertyStats.qMax [0, 3]) 1)).getD i 0) := by
  have hceil : (⌈((3 : ℚ) - 0) / 1⌉ : ℤ) = 3 := by norm_num
  have hb : PropertyStats.histCounts [0, 3]
      (PropertyStats.aRange (PropertyStats.qMin [0, 3]) (PropertyStats.qMax [0, 3]) 1) =
      [1, 0] := by
    simp [PropertyStats.histCounts, PropertyStats.aRange, PropertyStats.qMin,
      PropertyStats.qMax, hceil, List.range_succ, List.getD, List.filter_cons]
    norm_num [List.getD]
  exact claim_C7_amended 5 [5, 5, 5] [0, 3] 3 2 (1 / 10) 1
    (by simp) (by norm_num [List.dedup_cons_of_not_mem]) (by norm_num) (by rw [hb]; norm_num)

/-- C10 counterexample: for a pair of plain Python lists the failure is a
TypeError raised by the subtraction `arr0 - arr1` itself, not a failed access
to the `A1` attribute (an AttributeError); and the kernel value IS produced
for a mixed `np.matrix` / plain ndarray pair, so it is not produced only for
matrix inputs. -/
theorem claim_C10_counterexample :
    PropertyStats.laplacian_kernel (.pylist [0]) (.pylist [0]) 1 = .error .typeError ∧
    (Except.error PyError.typeError : Except PyError ℝ) ≠ .error .attributeError ∧
    PropertyStats.laplacian_kernel (.mat [2]) (.nd [1]) 1 = .ok (Real.exp (-1)) := by
  refine ⟨rfl, by simp, ?_⟩
  simp [PropertyStats.laplacian_kernel, NpArr.npSub, NpArr.vals, NpArr.isMat, NpArr.A1,
    Bind.bind, Except.bind]
  norm_num

/-- C10 amended: the kernels compute `exp(-L1(a-b)/sigma)` and
`exp(-L2(a-b)^2/(2 sigma^2))` exactly when the difference `a - b` is an
`np.matrix` exposing `A1`, i.e. when at least one operand is a matrix; for
plain operands the call raises — a TypeError from `list - list` subtraction,
or an AttributeError from the missing `A1` on an ndarray difference. -/
theorem claim_C10_amended (xs ys : List ℚ) (SIGMA : ℚ) (h : xs.length = ys.length) :
    (PropertyStats.laplacian_kernel (.pylist xs) (.pylist ys) SIGMA = .error .typeError ∧
     PropertyStats.gaussian_kernel (.pylist xs) (.pylist ys) SIGMA = .error .typeError) ∧
    (PropertyStats.laplacian_kernel (.nd xs) (.nd ys) SIGMA = .error .attributeError ∧
     PropertyStats.gaussian_kernel (.nd xs) (.nd ys) SIGMA = .error .attributeError ∧
     PropertyStats.laplacian_kernel (.pylist xs) (.nd ys) SIGMA = .error .attributeError ∧
     PropertyStats.laplacian_kernel (.nd xs) (.pylist ys) SIGMA = .error .attributeError) ∧
    (PropertyStats.laplacian_kernel (.mat xs) (.mat ys) SIGMA =
      .ok (Real.exp (-((((List.zipWith (· - ·) xs ys).map (fun x => |x|)).sum : ℚ) : ℝ) /
        (SIGMA : ℝ))) ∧
     PropertyStats.gaussian_kernel (.mat xs) (.mat ys) SIGMA =
      .ok (Real.exp (-((((List.zipWith (· - ·) xs ys).map (fun x => x ^ 2)).sum : ℚ) : ℝ) /
        (2 * (SIGMA : ℝ) ^ 2)))) := by
  refine ⟨⟨rfl, rfl⟩, ⟨?_, ?_, ?_, ?_⟩, ?_, ?_⟩
  · simp [PropertyStats.laplacian_kernel, NpArr.npSub, NpArr.vals, NpArr.isMat, NpArr.A1,
      h, Bind.bind, Except.bind]
  · simp [PropertyStats.gaussian_kernel, NpArr.npSub, NpArr.vals, NpArr.isMat, NpArr.A1,
      h, Bind.bind, Except.bind]
  · simp [PropertyStats.laplacian_kernel, NpArr.npSub, NpArr.vals, NpArr.isMat, NpArr.A1,
      h, Bind.bind, Except.bind]
  · simp [PropertyStats.laplacian_kernel, NpArr.npSub, NpArr.vals, NpArr.isMat, NpArr.A1,
      h, Bind.bind, Except.bind]
  · simp [PropertyStats.laplacian_kernel, NpArr.npSub, NpArr.vals, NpArr.isMat, NpArr.A1,
    h, Bind.bind, Except.bind]
  · have hnn : (0 : ℝ) ≤
        (List.map (Rat.cast ∘ fun x : ℚ => x ^ 2)
          (List.zipWith (fun a b => a - b) xs ys)).sum := by
      refine List.sum_nonneg ?_
      intro a ha
      obtain ⟨b, _, hb⟩ := List.mem_map.mp ha
      rw [← hb]
      simp only [Function.comp_apply]
      exact Rat.cast_nonneg.mpr (sq_nonneg b)
    simp [PropertyStats.gaussian_kernel, NpArr.npSub, NpArr.vals, NpArr.isMat, NpArr.A1,
      h, Bind.bind, Except.bind, div_div]
    rw [Real.sq_sqrt hnn]

/-- Witness for C10 at singleton vectors with `sigma = 1`. -/
theorem claim_C10_witness :
    (PropertyStats.laplacian_kernel (.pylist [5]) (.pylist [7]) 1 = .error .typeError ∧
     PropertyStats.gaussian_kernel (.pylist [5]) (.pylist [7]) 1 = .error .typeError) ∧
    (PropertyStats.laplacian_kernel (.nd [5]) (.nd [7]) 1 = .error .attributeError ∧
     PropertyStats.gaussian_kernel (.nd [5]) (.nd [7]) 1 = .error .attributeError ∧
     PropertyStats.laplacian_kernel (.pylist [5]) (.nd [7]) 1 = .error .attributeError ∧
     PropertyStats.laplacian_kernel (.nd [5]) (.pylist [7]) 1 = .error .attributeError) ∧
    (PropertyStats.laplacian_kernel (.mat [5]) (.mat [7]) 1 =
      .ok (Real.exp (-((((List.zipWith (· - ·) [5] [7]).map (fun x : ℚ => |x|)).sum : ℚ) : ℝ) /
        ((1 : ℚ) : ℝ))) ∧
     PropertyStats.gaussian_kernel (.mat [5]) (.mat [7]) 1 =
      .ok (Real.exp (-((((List.zipWith (· - ·) [5] [7]).map (fun x : ℚ => x ^ 2)).sum : ℚ) : ℝ) /
        (2 * ((1 : ℚ) : ℝ) ^ 2)))) :=
  claim_C10_amended [5] [7] 1 rfl
